import Mathlib

/-!
Verification of the process-streaming subsystem of the tdd-claude-dev-container
repository against its specification.

The frontend client (frontend/src/lib/api/websocket.ts and
frontend/src/lib/components/Terminal.svelte) is embedded directly from the
TypeScript source.  The backend core (PTY Controller, Output Ring Buffer,
Session Broadcaster, Connection Gateway) is not present in the repository
source tree — only its specification, its wire contract
(frontend/src/lib/types/api.ts) and its mock process
(docker/claude-cli/mock-claude.sh) are — so those components are modelled
from the specification, as marked on each definition.
-/

namespace Spec2Proof

/- ===================== Frontend client: websocket.ts ===================== -/

/-- The four values of the `WebSocketState` union type in
frontend/src/lib/api/websocket.ts. -/
inductive WebSocketState
  | connecting
  | connected
  | disconnected
  | error
  deriving DecidableEq, Repr

/-- The ready states of a browser WebSocket object, as compared against
`WebSocket.OPEN` in the client code. -/
inductive WSReadyState
  | CONNECTING
  | OPEN
  | CLOSING
  | CLOSED
  deriving DecidableEq, Repr

/-- The commands the client actually sends: `sendInput`, `sendInterrupt` and
`sendResize` in websocket.ts construct exactly these three object shapes. -/
inductive TerminalCommand
  | input (data : String)
  | interrupt
  | resize (cols rows : Int)
  deriving DecidableEq, Repr

/-- One hexadecimal digit, lower case, as produced by JSON escaping. -/
def hexDigit (n : Nat) : Char :=
  if n < 10 then Char.ofNat (48 + n) else Char.ofNat (87 + n)

/-- The escape JSON.stringify applies to a single character of a string
value: quote and backslash are backslash-escaped, the common control
characters get their short escapes, all other control characters below
0x20 become a \u00XX escape, and every other character is unchanged. -/
def jsonEscapeChar (c : Char) : String :=
  if c = '"' then "\\\""
  else if c = '\\' then "\\\\"
  else if c = '\x08' then "\\b"
  else if c = '\x09' then "\\t"
  else if c = '\x0a' then "\\n"
  else if c = '\x0c' then "\\f"
  else if c = '\x0d' then "\\r"
  else if c.toNat < 32 then
    "\\u00" ++ String.mk [hexDigit (c.toNat / 16), hexDigit (c.toNat % 16)]
  else String.singleton c

/-- JSON.stringify of a string value: a quoted, escaped string. -/
def jsonQuote (s : String) : String :=
  "\"" ++ String.join (s.toList.map jsonEscapeChar) ++ "\""

/-- JSON.stringify of the three command object literals built in
websocket.ts (object-literal insertion order: type first). -/
def stringifyCommand : TerminalCommand → String
  | .input d => "\x7b\"type\":\"input\",\"data\":" ++ jsonQuote d ++ "\x7d"
  | .interrupt => "\x7b\"type\":\"interrupt\"\x7d"
  | .resize c r =>
      "\x7b\"type\":\"resize\",\"cols\":" ++ toString c ++
        ",\"rows\":" ++ toString r ++ "\x7d"

/-- The mutable fields of class TerminalWebSocket that its methods read or
write: the underlying socket (`null` or a socket with a ready state), the
reconnection counter, and the connection state. -/
structure TerminalWebSocket where
  ws : Option WSReadyState
  reconnectAttempts : Nat
  state : WebSocketState
  deriving DecidableEq, Repr

/-- `maxReconnectAttempts = 5` in websocket.ts. -/
def maxReconnectAttempts : Nat := 5

/-- `reconnectDelay = 1000` (milliseconds) in websocket.ts. -/
def reconnectDelay : Nat := 1000

/-- A freshly constructed TerminalWebSocket: `ws` is null, the counter is 0,
and the state field is initialised to 'disconnected'. -/
def initTWS : TerminalWebSocket :=
  { ws := none, reconnectAttempts := 0, state := .disconnected }

/-- `connect()`: returns early if the socket exists and is OPEN; otherwise
sets state to 'connecting' and creates a new WebSocket (initially in the
CONNECTING ready state). -/
def connect (s : TerminalWebSocket) : TerminalWebSocket :=
  if s.ws = some .OPEN then s
  else { s with state := .connecting, ws := some .CONNECTING }

/-- The `onopen` handler: the socket is now OPEN; sets state to 'connected'
and resets `reconnectAttempts` to 0. -/
def onOpen (s : TerminalWebSocket) : TerminalWebSocket :=
  { s with ws := some .OPEN, reconnectAttempts := 0, state := .connected }

/-- `attemptReconnect()`: returns early when the counter has reached
`maxReconnectAttempts`; otherwise increments it and schedules a delayed
`connect()`.  The Bool records whether a reconnection timer was scheduled. -/
def attemptReconnect (s : TerminalWebSocket) : TerminalWebSocket × Bool :=
  if s.reconnectAttempts ≥ maxReconnectAttempts then (s, false)
  else ({ s with reconnectAttempts := s.reconnectAttempts + 1 }, true)

/-- The `onclose` handler: the socket is CLOSED; sets state to
'disconnected' and calls `attemptReconnect()`. -/
def onClose (s : TerminalWebSocket) : TerminalWebSocket × Bool :=
  attemptReconnect { s with ws := some .CLOSED, state := .disconnected }

/-- The `onerror` handler: sets state to 'error'. -/
def onError (s : TerminalWebSocket) : TerminalWebSocket :=
  { s with state := .error }

/-- `send(command)`: transmits `JSON.stringify(command)` only when the
socket exists and its ready state is OPEN; otherwise does nothing — the
instance state is untouched, nothing is queued, and no error is raised.
The result is the transmitted frame, or `none` when nothing was sent. -/
def send (s : TerminalWebSocket) (cmd : TerminalCommand) : Option String :=
  if s.ws = some .OPEN then some (stringifyCommand cmd) else none

/-- `sendInput(data)`: `send(\x7b type: 'input', data \x7d)`. -/
def sendInput (s : TerminalWebSocket) (data : String) : Option String :=
  send s (.input data)

/-- `sendInterrupt()`: `send(\x7b type: 'interrupt' \x7d)`. -/
def sendInterrupt (s : TerminalWebSocket) : Option String :=
  send s .interrupt

/-- `sendResize(cols, rows)`: `send(\x7b type: 'resize', cols, rows \x7d)`. -/
def sendResize (s : TerminalWebSocket) (cols rows : Int) : Option String :=
  send s (.resize cols rows)

/-- `disconnect()`: sets `reconnectAttempts = maxReconnectAttempts` (the
comment in the source reads "Prevent reconnection"), closes the socket if
one exists and nulls it, then sets state to 'disconnected'.  The Bool
records whether `close()` was called on an underlying socket. -/
def disconnect (s : TerminalWebSocket) : TerminalWebSocket × Bool :=
  ({ ws := none, reconnectAttempts := maxReconnectAttempts,
     state := .disconnected }, s.ws.isSome)

/-- `reconnect()`: resets the counter to 0, then calls `disconnect()`
(which sets it straight back to `maxReconnectAttempts`), then `connect()`. -/
def reconnect (s : TerminalWebSocket) : TerminalWebSocket :=
  connect (disconnect { s with reconnectAttempts := 0 }).1

/-- `getState()`. -/
def getState (s : TerminalWebSocket) : WebSocketState := s.state

/-- `isConnected()`. -/
def isConnected (s : TerminalWebSocket) : Bool := s.state = .connected

/- ================= Frontend component: Terminal.svelte ================= -/

/-- The per-component state Terminal.svelte's send path reads: its own raw
WebSocket binding (`null` until `connect()` runs). -/
structure TerminalComponent where
  ws : Option WSReadyState
  deriving DecidableEq, Repr

/-- `sendCommand(command)` in Terminal.svelte: transmits
`JSON.stringify(command)` only when `ws` exists and is OPEN; otherwise
silently does nothing. -/
def sendCommand (t : TerminalComponent) (cmd : TerminalCommand) : Option String :=
  if t.ws = some .OPEN then some (stringifyCommand cmd) else none

/-- `handleResize()` in Terminal.svelte: when the fit addon and terminal
exist, fits the terminal and sends a resize command carrying the
terminal's current `cols` and `rows`, with no validation or clamping.
`dims` is the terminal's post-fit (cols, rows), or `none` when the
terminal is not mounted. -/
def handleResize (dims : Option (Int × Int)) : Option TerminalCommand :=
  dims.map fun d => TerminalCommand.resize d.1 d.2

/-- The `terminal.onData` handler: every keystroke datum is forwarded as
an input command. -/
def onData (data : String) : TerminalCommand := .input data

/-- The Interrupt button's exported `interrupt()` function. -/
def interruptButton : TerminalCommand := .interrupt

/-- The spec's wire constraint on a resize command: cols in 1..500 and
rows in 1..200 (and trivially satisfied by the other variants). -/
def resizeInBounds : TerminalCommand → Bool
  | .resize c r => decide (1 ≤ c) && decide (c ≤ 500) &&
      decide (1 ≤ r) && decide (r ≤ 200)
  | _ => true

/- ============ Backend core (absent from the source tree) ============ -/

/-- Modelled from the spec: the Controller state machine
Starting, Running, Exited, Errored (section 4.1); the backend Controller
implementation is missing from the source tree. -/
inductive ProcState
  | Starting
  | Running
  | Exited
  | Errored
  deriving DecidableEq, Repr

/-- How the child process has configured its response to SIGINT: ignore
the signal, take the default action (terminate), or run a custom handler
that exits with the given code — as mock-claude.sh's HANG command does
with trap 'echo "Interrupted!"; exit 130' INT TERM. -/
inductive SigintDisposition
  | ignore
  | dfl
  | handler (exitCode : Nat)
  deriving DecidableEq, Repr

/-- The SIGINT disposition mock-claude.sh installs while handling HANG:
a custom handler that prints and exits with code 130. -/
def mockHangDisposition : SigintDisposition := .handler 130

/-- Modelled from the spec: `Interrupt()` delivers the platform interrupt
signal to the process group and does not forcibly kill — the process
chooses how to respond (section 4.1); the Controller implementation is
missing from the source tree.  The resulting Controller state: a Running
process that ignores the signal stays Running; the default action and an
exiting handler terminate the process, which the reaper observes as
Exited; a process no longer Running is unaffected. -/
def interruptResult (st : ProcState) (d : SigintDisposition) : ProcState :=
  match st, d with
  | .Running, .ignore => .Running
  | .Running, .dfl => .Exited
  | .Running, .handler _ => .Exited
  | st, _ => st

/-- The inbound Command variants of the spec's data model (section 3):
Input(text), Interrupt, Resize(cols, rows). -/
inductive Command
  | Input (text : String)
  | Interrupt
  | Resize (cols rows : Int)
  deriving DecidableEq, Repr

/-- The Controller calls a Gateway can issue (section 4.1). -/
inductive ControllerCall
  | Write (bytes : String)
  | Interrupt
  | Resize (cols rows : Int)
  deriving DecidableEq, Repr

/-- Modelled from the spec: the Connection Gateway's inbound-command
mapping — Input to Controller.Write, Interrupt to Controller.Interrupt,
Resize to Controller.Resize (section 4.4); the Gateway implementation is
missing from the source tree. -/
def gatewayDispatch : Command → ControllerCall
  | .Input text => .Write text
  | .Interrupt => .Interrupt
  | .Resize c r => .Resize c r

/-- The Ring Buffer capacity: 10 MiB, fixed (section 4.2). -/
def ringCapacity : Nat := 10485760

/-- Modelled from the spec: `Append(bytes)` adds to the tail and, if the
resulting size exceeds capacity, discards oldest bytes until within
capacity; it is a total function — it never fails and has no blocking to
model (section 4.2); the Ring Buffer implementation is missing from the
source tree.  Bytes are modelled as Nat. -/
def ringAppend (buf bytes : List Nat) : List Nat :=
  (buf ++ bytes).drop ((buf ++ bytes).length - ringCapacity)

/-- Modelled from the spec: `Snapshot()` returns the current full contents
as an immutable copy (section 4.2). -/
def ringSnapshot (buf : List Nat) : List Nat := buf

/-- An empty Ring Buffer. -/
def ringEmpty : List Nat := []

/-- The last `ringCapacity` bytes of a byte sequence (all of it when it is
shorter than the capacity). -/
def lastBytes (l : List Nat) : List Nat := l.drop (l.length - ringCapacity)

/-- The per-viewer outbound state of one Subscriber: the chunks already
written out to its connection (oldest first, immune to the drop policy),
its still-pending bounded queue (oldest first), and a count of
SubscriberOverrun drops resolved against it. -/
structure ViewerState where
  delivered : List (List Nat)
  queue : List (List Nat)
  drops : Nat
  deriving DecidableEq, Repr

/-- Modelled from the spec: the Session Broadcaster's state — the session's
Ring Buffer plus the live subscriber set with each viewer's outbound
queue (sections 4.2 and 4.3); the Broadcaster implementation is missing
from the source tree. -/
structure Broadcaster where
  buffer : List Nat
  subs : List (Nat × ViewerState)
  deriving DecidableEq, Repr

/-- A fresh session: empty history, no subscribers. -/
def emptyBroadcaster : Broadcaster := { buffer := [], subs := [] }

/-- Modelled from the spec: pushing one chunk onto a viewer's bounded
queue of capacity `qcap` — if the queue is full, the SubscriberOverrun is
resolved by dropping that viewer's oldest queued chunk, never by blocking
the producer and never by raising an error (sections 4.3 and 7). -/
def pushChunk (qcap : Nat) (vs : ViewerState) (c : List Nat) : ViewerState :=
  if vs.queue.length ≥ qcap then
    { vs with queue := vs.queue.drop 1 ++ [c], drops := vs.drops + 1 }
  else
    { vs with queue := vs.queue ++ [c] }

/-- Modelled from the spec: `Publish(bytes)` appends to the Ring Buffer
and pushes the chunk to every live subscriber's channel (section 4.3);
a total function on the Broadcaster state — no error is ever returned. -/
def publish (qcap : Nat) (b : Broadcaster) (c : List Nat) : Broadcaster :=
  { buffer := ringAppend b.buffer c
    subs := b.subs.map fun p => (p.1, pushChunk qcap p.2 c) }

/-- Modelled from the spec: `Subscribe()` registers a fresh viewer whose
first outbound event is exactly one Output carrying the session's
Snapshot — sent before any live chunk, even when the snapshot is empty
(sections 4.3, 4.4 and 6). -/
def subscribe (b : Broadcaster) (v : Nat) : Broadcaster :=
  { b with subs :=
      (v, { delivered := [ringSnapshot b.buffer], queue := [], drops := 0 })
        :: b.subs.filter fun p => p.1 != v }

/-- Modelled from the spec: `Unsubscribe(handle)` removes a viewer;
idempotent; does not affect other viewers (section 4.3). -/
def unsubscribe (b : Broadcaster) (v : Nat) : Broadcaster :=
  { b with subs := b.subs.filter fun p => p.1 != v }

/-- Viewer `v`'s transport drains its pending queue: everything queued is
written out to the connection, in order. -/
def drain (b : Broadcaster) (v : Nat) : Broadcaster :=
  { b with subs := b.subs.map fun p =>
      (p.1, if p.1 = v then
        { delivered := p.2.delivered ++ p.2.queue, queue := [], drops := p.2.drops }
      else p.2) }

/-- The events a session trace interleaves: the single producer publishing
a chunk, viewers connecting and disconnecting, and viewer transports
draining their queues. -/
inductive BEv
  | publish (c : List Nat)
  | subscribe (v : Nat)
  | unsubscribe (v : Nat)
  | drain (v : Nat)
  deriving DecidableEq, Repr

/-- One step of a session trace. -/
def stepB (qcap : Nat) (b : Broadcaster) : BEv → Broadcaster
  | .publish c => publish qcap b c
  | .subscribe v => subscribe b v
  | .unsubscribe v => unsubscribe b v
  | .drain v => drain b v

/-- Run a session trace from a Broadcaster state. -/
def runB (qcap : Nat) (b : Broadcaster) (t : List BEv) : Broadcaster :=
  t.foldl (stepB qcap) b

/-- Look up the outbound state of viewer `v`. -/
def lookupViewer (b : Broadcaster) (v : Nat) : Option ViewerState :=
  (b.subs.find? fun p => p.1 == v).map fun p => p.2

/-- The Event variants of the spec's data model (section 3):
Output(bytes), Status(state), Error(message). -/
inductive Event
  | output (data : List Nat)
  | status (state : ProcState)
  | error (message : String)
  deriving DecidableEq, Repr

/-- The full sequence of Output events viewer `v` observes from a
Broadcaster state: the chunks already written to its connection followed
by its still-queued chunks, in order (what the viewer sees once its queue
is flushed, absent further overruns). -/
def viewerEvents (b : Broadcaster) (v : Nat) : List Event :=
  match lookupViewer b v with
  | none => []
  | some vs => (vs.delivered ++ vs.queue).map Event.output

/-- The chunks published in a trace, in emission order. -/
def publishedChunks (t : List BEv) : List (List Nat) :=
  t.filterMap fun e =>
    match e with
    | .publish c => some c
    | _ => none

/-- Whether an event subscribes or unsubscribes viewer `v`. -/
def touchesViewer (v : Nat) : BEv → Bool
  | .subscribe w => w == v
  | .unsubscribe w => w == v
  | _ => false

/-- The bytes carried by the Output events of an event sequence. -/
def outputBytes (es : List Event) : List Nat :=
  (es.filterMap fun e =>
    match e with
    | .output d => some d
    | _ => none).flatten

/-- A TerminalWebSocket whose underlying socket is open, as after a
successful `connect()`. -/
def openTWS : TerminalWebSocket :=
  { ws := some .OPEN, reconnectAttempts := 0, state := .connected }

/-- A concrete session used to exercise the slow-viewer drop policy:
some history in the buffer, viewer 0 with a full queue (capacity 1) and
viewer 1 with an empty one. -/
def overrunDemo : Broadcaster :=
  { buffer := [9]
    subs := [(0, { delivered := [[]], queue := [[5]], drops := 0 }),
             (1, { delivered := [[]], queue := [], drops := 0 })] }

/- ============================ Lemmas ============================ -/

theorem length_lastBytes_le (l : List Nat) : (lastBytes l).length ≤ ringCapacity := by
  simp only [lastBytes, List.length_drop]
  omega

theorem drop_congr (l : List Nat) {i j : Nat} (h : i = j) : l.drop i = l.drop j := by
  rw [h]

theorem lastBytes_nil : lastBytes [] = [] := by
  simp [lastBytes]

theorem lastBytes_append (s c : List Nat) :
    ringAppend (lastBytes s) c = lastBytes (s ++ c) := by
  unfold ringAppend lastBytes
  simp only [List.length_append, List.length_drop,
    List.drop_append_eq_append_drop, List.drop_drop]
  refine congrArg₂ (· ++ ·) (drop_congr s ?_) (drop_congr c ?_) <;> omega

theorem foldl_ringAppend (chunks : List (List Nat)) :
    ∀ s : List Nat,
      chunks.foldl ringAppend (lastBytes s) = lastBytes (s ++ chunks.flatten) := by
  induction chunks with
  | nil =>
      intro s
      rw [List.foldl_nil, List.flatten_nil, List.append_nil]
  | cons c cs ih =>
      intro s
      rw [List.foldl_cons, lastBytes_append, ih (s ++ c), List.flatten_cons,
        List.append_assoc]

theorem runB_cons (qcap : Nat) (b : Broadcaster) (e : BEv) (t : List BEv) :
    runB qcap b (e :: t) = runB qcap (stepB qcap b e) t := rfl

theorem publishedChunks_publish (c : List Nat) (t : List BEv) :
    publishedChunks (BEv.publish c :: t) = c :: publishedChunks t := rfl

theorem publishedChunks_subscribe (v : Nat) (t : List BEv) :
    publishedChunks (BEv.subscribe v :: t) = publishedChunks t := rfl

theorem publishedChunks_unsubscribe (v : Nat) (t : List BEv) :
    publishedChunks (BEv.unsubscribe v :: t) = publishedChunks t := rfl

theorem publishedChunks_drain (v : Nat) (t : List BEv) :
    publishedChunks (BEv.drain v :: t) = publishedChunks t := rfl

theorem publishedChunks_nil : publishedChunks [] = [] := rfl

theorem find?_map_snd (f : Nat × ViewerState → ViewerState) (v : Nat) :
    ∀ l : List (Nat × ViewerState),
      (l.map fun p => (p.1, f p)).find? (fun p => p.1 == v)
        = (l.find? fun p => p.1 == v).map fun p => (p.1, f p) := by
  intro l
  induction l with
  | nil => rfl
  | cons p ps ih =>
      rw [List.map_cons]
      cases hp : (p.1 == v) with
      | true =>
          rw [@List.find?_cons_of_pos _ (fun q => q.1 == v) (p.1, f p)
              (List.map (fun q => (q.1, f q)) ps) hp,
            @List.find?_cons_of_pos _ (fun q => q.1 == v) p ps hp]
          rfl
      | false =>
          rw [@List.find?_cons_of_neg _ (fun q => q.1 == v) (p.1, f p)
              (List.map (fun q => (q.1, f q)) ps) (by simp [hp]),
            @List.find?_cons_of_neg _ (fun q => q.1 == v) p ps (by simp [hp])]
          exact ih

theorem find?_filter_ne (w v : Nat) (hvw : v ≠ w) :
    ∀ l : List (Nat × ViewerState),
      (l.filter fun p => p.1 != w).find? (fun p => p.1 == v)
        = l.find? (fun p => p.1 == v) := by
  intro l
  induction l with
  | nil => rfl
  | cons p ps ih =>
      rw [List.filter_cons]
      by_cases hp : p.1 = w
      · have h2 : (p.1 == v) = false := by
          simp only [beq_eq_false_iff_ne, ne_eq, hp]
          exact Ne.symm hvw
        have hcond : ¬ ((p.1 != w) = true) := by simp [hp]
        rw [if_neg hcond,
          @List.find?_cons_of_neg _ (fun q => q.1 == v) p ps (by simp [h2])]
        exact ih
      · have hcond : (p.1 != w) = true := by simp [hp]
        rw [if_pos hcond]
        cases hv2 : (p.1 == v) with
        | true =>
            rw [@List.find?_cons_of_pos _ (fun q => q.1 == v) p
                (List.filter (fun q => q.1 != w) ps) hv2,
              @List.find?_cons_of_pos _ (fun q => q.1 == v) p ps hv2]
        | false =>
            rw [@List.find?_cons_of_neg _ (fun q => q.1 == v) p
                (List.filter (fun q => q.1 != w) ps) (by simp [hv2]),
              @List.find?_cons_of_neg _ (fun q => q.1 == v) p ps (by simp [hv2])]
            exact ih

theorem lookupViewer_publish (qcap : Nat) (b : Broadcaster) (c : List Nat) (v : Nat) :
    lookupViewer (publish qcap b c) v
      = (lookupViewer b v).map fun vs => pushChunk qcap vs c := by
  unfold lookupViewer publish
  rw [find?_map_snd (fun p => pushChunk qcap p.2 c) v b.subs]
  cases List.find? (fun p => p.1 == v) b.subs <;> rfl

theorem lookupViewer_drain_self (b : Broadcaster) (v : Nat) :
    lookupViewer (drain b v) v
      = (lookupViewer b v).map fun vs =>
          { delivered := vs.delivered ++ vs.queue, queue := [], drops := vs.drops } := by
  unfold lookupViewer drain
  rw [find?_map_snd
    (fun p => if p.1 = v then
      { delivered := p.2.delivered ++ p.2.queue, queue := [], drops := p.2.drops }
    else p.2) v b.subs]
  cases h : List.find? (fun p => p.1 == v) b.subs with
  | none => rfl
  | some p =>
      have hp : p.1 = v := by simpa using List.find?_some h
      simp [hp]

theorem lookupViewer_drain_ne (b : Broadcaster) (w v : Nat) (hvw : v ≠ w) :
    lookupViewer (drain b w) v = lookupViewer b v := by
  unfold lookupViewer drain
  rw [find?_map_snd
    (fun p => if p.1 = w then
      { delivered := p.2.delivered ++ p.2.queue, queue := [], drops := p.2.drops }
    else p.2) v b.subs]
  cases h : List.find? (fun p => p.1 == v) b.subs with
  | none => rfl
  | some p =>
      have hp : p.1 = v := by simpa using List.find?_some h
      have hpw : ¬ p.1 = w := by rw [hp]; exact hvw
      simp [hpw]

theorem lookupViewer_subscribe_self (b : Broadcaster) (v : Nat) :
    lookupViewer (subscribe b v) v
      = some { delivered := [ringSnapshot b.buffer], queue := [], drops := 0 } := by
  unfold lookupViewer subscribe
  rw [@List.find?_cons_of_pos _ (fun q => q.1 == v)
    (v, { delivered := [ringSnapshot b.buffer], queue := [], drops := 0 })
    (List.filter (fun q => q.1 != v) b.subs) (by simp)]
  rfl

theorem lookupViewer_subscribe_ne (b : Broadcaster) (w v : Nat) (hvw : v ≠ w) :
    lookupViewer (subscribe b w) v = lookupViewer b v := by
  unfold lookupViewer subscribe
  rw [@List.find?_cons_of_neg _ (fun q => q.1 == v)
      (w, { delivered := [ringSnapshot b.buffer], queue := [], drops := 0 })
      (List.filter (fun q => q.1 != w) b.subs)
      (by simp only [beq_eq_false_iff_ne, ne_eq, beq_iff_eq]; exact Ne.symm hvw),
    find?_filter_ne w v hvw b.subs]

theorem lookupViewer_unsubscribe_ne (b : Broadcaster) (w v : Nat) (hvw : v ≠ w) :
    lookupViewer (unsubscribe b w) v = lookupViewer b v := by
  unfold lookupViewer unsubscribe
  rw [find?_filter_ne w v hvw b.subs]

theorem outputBytes_map_output (l : List (List Nat)) :
    outputBytes (l.map Event.output) = l.flatten := by
  induction l with
  | nil => rfl
  | cons x xs ih =>
      unfold outputBytes at ih ⊢
      simp only [List.map_cons, List.filterMap_cons] at ih ⊢
      rw [List.flatten_cons, List.flatten_cons, ih]

theorem touches_cons_head (v : Nat) (e : BEv) (t : List BEv)
    (h : ∀ x ∈ e :: t, touchesViewer v x = false) : touchesViewer v e = false :=
  h e (List.mem_cons_self e t)

theorem touches_cons_tail (v : Nat) (e : BEv) (t : List BEv)
    (h : ∀ x ∈ e :: t, touchesViewer v x = false) :
    ∀ x ∈ t, touchesViewer v x = false :=
  fun x hx => h x (List.mem_cons_of_mem e hx)

theorem c1_aux (qcap v : Nat) :
    ∀ (post : List BEv) (b : Broadcaster) (vs : ViewerState),
      lookupViewer b v = some vs →
      (∀ e ∈ post, touchesViewer v e = false) →
      vs.queue.length + (publishedChunks post).length ≤ qcap →
      ∃ vs', lookupViewer (runB qcap b post) v = some vs'
        ∧ vs'.delivered ++ vs'.queue
            = (vs.delivered ++ vs.queue) ++ publishedChunks post := by
  intro post
  induction post with
  | nil =>
      intro b vs hl _ _
      exact ⟨vs, hl, by rw [publishedChunks_nil, List.append_nil]⟩
  | cons e es ih =>
      intro b vs hl hv hq
      rw [runB_cons]
      cases e with
      | publish c =>
          have hcount : (publishedChunks (BEv.publish c :: es)).length
              = (publishedChunks es).length + 1 := by
            rw [publishedChunks_publish]; rfl
          have hfull : ¬ vs.queue.length ≥ qcap := by omega
          have hl' : lookupViewer (stepB qcap b (BEv.publish c)) v
              = some { vs with queue := vs.queue ++ [c] } := by
            show lookupViewer (publish qcap b c) v = _
            rw [lookupViewer_publish, hl]
            simp [pushChunk, hfull]
          obtain ⟨vs', h1, h2⟩ := ih _ _ hl' (touches_cons_tail v _ es hv) (by
            simp only [List.length_append, List.length_cons, List.length_nil]
            omega)
          refine ⟨vs', h1, ?_⟩
          rw [h2, publishedChunks_publish]
          simp [List.append_assoc]
      | subscribe w =>
          have hw : v ≠ w := by
            have h := touches_cons_head v _ es hv
            simp only [touchesViewer, beq_eq_false_iff_ne, ne_eq] at h
            exact fun hvw => h hvw.symm
          have hl' : lookupViewer (stepB qcap b (BEv.subscribe w)) v = some vs := by
            show lookupViewer (subscribe b w) v = _
            rw [lookupViewer_subscribe_ne b w v hw, hl]
          obtain ⟨vs', h1, h2⟩ := ih _ _ hl' (touches_cons_tail v _ es hv)
            (by rw [publishedChunks_subscribe] at hq; exact hq)
          exact ⟨vs', h1, by rw [h2, publishedChunks_subscribe]⟩
      | unsubscribe w =>
          have hw : v ≠ w := by
            have h := touches_cons_head v _ es hv
            simp only [touchesViewer, beq_eq_false_iff_ne, ne_eq] at h
            exact fun hvw => h hvw.symm
          have hl' : lookupViewer (stepB qcap b (BEv.unsubscribe w)) v = some vs := by
            show lookupViewer (unsubscribe b w) v = _
            rw [lookupViewer_unsubscribe_ne b w v hw, hl]
          obtain ⟨vs', h1, h2⟩ := ih _ _ hl' (touches_cons_tail v _ es hv)
            (by rw [publishedChunks_unsubscribe] at hq; exact hq)
          exact ⟨vs', h1, by rw [h2, publishedChunks_unsubscribe]⟩
      | drain w =>
          by_cases hw : v = w
          · subst hw
            have hl' : lookupViewer (stepB qcap b (BEv.drain v)) v
                = some { delivered := vs.delivered ++ vs.queue,
                         queue := [], drops := vs.drops } := by
              show lookupViewer (drain b v) v = _
              rw [lookupViewer_drain_self, hl]
              rfl
            obtain ⟨vs', h1, h2⟩ := ih _ _ hl' (touches_cons_tail v _ es hv)
              (by rw [publishedChunks_drain] at hq; simp only [List.length_nil]; omega)
            refine ⟨vs', h1, ?_⟩
            rw [h2, publishedChunks_drain]
            simp
          · have hl' : lookupViewer (stepB qcap b (BEv.drain w)) v = some vs := by
              show lookupViewer (drain b w) v = _
              rw [lookupViewer_drain_ne b w v hw, hl]
            obtain ⟨vs', h1, h2⟩ := ih _ _ hl' (touches_cons_tail v _ es hv)
              (by rw [publishedChunks_drain] at hq; exact hq)
            exact ⟨vs', h1, by rw [h2, publishedChunks_drain]⟩

theorem c3_aux (qcap v : Nat) :
    ∀ (post : List BEv) (b : Broadcaster) (vs : ViewerState),
      lookupViewer b v = some vs →
      (∀ e ∈ post, touchesViewer v e = false) →
      ∃ vs', lookupViewer (runB qcap b post) v = some vs'
        ∧ (vs'.delivered ++ vs'.queue).Sublist
            ((vs.delivered ++ vs.queue) ++ publishedChunks post) := by
  intro post
  induction post with
  | nil =>
      intro b vs hl _
      exact ⟨vs, hl, by rw [publishedChunks_nil, List.append_nil]⟩
  | cons e es ih =>
      intro b vs hl hv
      rw [runB_cons]
      cases e with
      | publish c =>
          have hl' : lookupViewer (stepB qcap b (BEv.publish c)) v
              = some (pushChunk qcap vs c) := by
            show lookupViewer (publish qcap b c) v = _
            rw [lookupViewer_publish, hl]
            rfl
          obtain ⟨vs', h1, h2⟩ := ih _ _ hl' (touches_cons_tail v _ es hv)
          refine ⟨vs', h1, ?_⟩
          have hstep : (pushChunk qcap vs c).delivered ++ (pushChunk qcap vs c).queue
              |>.Sublist ((vs.delivered ++ vs.queue) ++ [c]) := by
            by_cases hfull : vs.queue.length ≥ qcap
            · have hpc : pushChunk qcap vs c
                  = { vs with queue := vs.queue.drop 1 ++ [c], drops := vs.drops + 1 } := by
                unfold pushChunk
                rw [if_pos hfull]
              rw [hpc, List.append_assoc]
              exact List.Sublist.append_left
                ((List.drop_sublist 1 vs.queue).append (List.Sublist.refl [c])) vs.delivered
            · have hpc : pushChunk qcap vs c = { vs with queue := vs.queue ++ [c] } := by
                unfold pushChunk
                rw [if_neg hfull]
              rw [hpc, List.append_assoc]
          refine h2.trans ?_
          rw [publishedChunks_publish]
          have := hstep.append (List.Sublist.refl (publishedChunks es))
          rw [List.append_assoc] at this ⊢
          simpa using this
      | subscribe w =>
          have hw : v ≠ w := by
            have h := touches_cons_head v _ es hv
            simp only [touchesViewer, beq_eq_false_iff_ne, ne_eq] at h
            exact fun hvw => h hvw.symm
          have hl' : lookupViewer (stepB qcap b (BEv.subscribe w)) v = some vs := by
            show lookupViewer (subscribe b w) v = _
            rw [lookupViewer_subscribe_ne b w v hw, hl]
          obtain ⟨vs', h1, h2⟩ := ih _ _ hl' (touches_cons_tail v _ es hv)
          exact ⟨vs', h1, by rw [publishedChunks_subscribe]; exact h2⟩
      | unsubscribe w =>
          have hw : v ≠ w := by
            have h := touches_cons_head v _ es hv
            simp only [touchesViewer, beq_eq_false_iff_ne, ne_eq] at h
            exact fun hvw => h hvw.symm
          have hl' : lookupViewer (stepB qcap b (BEv.unsubscribe w)) v = some vs := by
            show lookupViewer (unsubscribe b w) v = _
            rw [lookupViewer_unsubscribe_ne b w v hw, hl]
          obtain ⟨vs', h1, h2⟩ := ih _ _ hl' (touches_cons_tail v _ es hv)
          exact ⟨vs', h1, by rw [publishedChunks_unsubscribe]; exact h2⟩
      | drain w =>
          by_cases hw : v = w
          · subst hw
            have hl' : lookupViewer (stepB qcap b (BEv.drain v)) v
                = some { delivered := vs.delivered ++ vs.queue,
                         queue := [], drops := vs.drops } := by
              show lookupViewer (drain b v) v = _
              rw [lookupViewer_drain_self, hl]
              rfl
            obtain ⟨vs', h1, h2⟩ := ih _ _ hl' (touches_cons_tail v _ es hv)
            refine ⟨vs', h1, ?_⟩
            rw [publishedChunks_drain]
            simpa using h2
          · have hl' : lookupViewer (stepB qcap b (BEv.drain w)) v = some vs := by
              show lookupViewer (drain b w) v = _
              rw [lookupViewer_drain_ne b w v hw, hl]
            obtain ⟨vs', h1, h2⟩ := ih _ _ hl' (touches_cons_tail v _ es hv)
            exact ⟨vs', h1, by rw [publishedChunks_drain]; exact h2⟩

/- ============================ Claims ============================ -/

/-- C2: for every sequence of Append calls on the Ring Buffer, Append is a
total function (it never fails; there is no blocking to model), and
afterwards the Snapshot length never exceeds the fixed 10 MiB capacity; the
snapshot always equals the most recent `ringCapacity` bytes of the appended
byte stream — oldest bytes evicted first — so when more than 10 MiB has
been appended its length is exactly 10 MiB. -/
theorem c2_ringBufferBounded (chunks : List (List Nat)) :
    (ringSnapshot (chunks.foldl ringAppend ringEmpty)).length ≤ ringCapacity
    ∧ ringSnapshot (chunks.foldl ringAppend ringEmpty)
        = chunks.flatten.drop (chunks.flatten.length - ringCapacity)
    ∧ (ringSnapshot (chunks.foldl ringAppend ringEmpty)).length
        = min chunks.flatten.length ringCapacity := by
  have h : chunks.foldl ringAppend ringEmpty = lastBytes chunks.flatten := by
    have h0 : ringEmpty = lastBytes [] := lastBytes_nil.symm
    rw [h0, foldl_ringAppend, List.nil_append]
  refine ⟨?_, ?_, ?_⟩
  · rw [ringSnapshot, h]; exact length_lastBytes_le _
  · rw [ringSnapshot, h]; rfl
  · rw [ringSnapshot, h]
    simp only [lastBytes, List.length_drop]
    omega

/-- C5: the Gateway maps Input to Controller.Write, Interrupt to
Controller.Interrupt and Resize to Controller.Resize (Gateway side
modelled from the spec), and on an open socket the client emits exactly
the three tagged wire variants: `sendInput(text)` transmits
a type:input object carrying the text, `sendInterrupt()` transmits the
bare type:interrupt object, and `sendResize(cols, rows)` transmits the
type:resize object with the cols and rows fields; every terminal
keystroke is forwarded as an input command by the onData handler. -/
theorem c5_commandMapping (text : String) (cols rows : Int)
    (s : TerminalWebSocket) (h : s.ws = some WSReadyState.OPEN) :
    gatewayDispatch (Command.Input text) = ControllerCall.Write text
    ∧ gatewayDispatch Command.Interrupt = ControllerCall.Interrupt
    ∧ gatewayDispatch (Command.Resize cols rows) = ControllerCall.Resize cols rows
    ∧ sendInput s text
        = some ("\x7b\"type\":\"input\",\"data\":" ++ jsonQuote text ++ "\x7d")
    ∧ sendInterrupt s = some "\x7b\"type\":\"interrupt\"\x7d"
    ∧ sendResize s cols rows
        = some ("\x7b\"type\":\"resize\",\"cols\":" ++ toString cols
            ++ ",\"rows\":" ++ toString rows ++ "\x7d")
    ∧ onData text = TerminalCommand.input text := by
  refine ⟨rfl, rfl, rfl, ?_, ?_, ?_, rfl⟩ <;>
    simp [sendInput, sendInterrupt, sendResize, send, h, stringifyCommand]

/-- Witness for C5 at a concrete open socket and concrete inputs. -/
theorem c5_commandMapping_witness :
    openTWS.ws = some WSReadyState.OPEN
    ∧ (gatewayDispatch (Command.Input "ls") = ControllerCall.Write "ls"
      ∧ gatewayDispatch Command.Interrupt = ControllerCall.Interrupt
      ∧ gatewayDispatch (Command.Resize 80 24) = ControllerCall.Resize 80 24
      ∧ sendInput openTWS "ls"
          = some ("\x7b\"type\":\"input\",\"data\":" ++ jsonQuote "ls" ++ "\x7d")
      ∧ sendInterrupt openTWS = some "\x7b\"type\":\"interrupt\"\x7d"
      ∧ sendResize openTWS 80 24
          = some ("\x7b\"type\":\"resize\",\"cols\":" ++ toString (80 : Int)
              ++ ",\"rows\":" ++ toString (24 : Int) ++ "\x7d")
      ∧ onData "ls" = TerminalCommand.input "ls") :=
  ⟨rfl, c5_commandMapping "ls" 80 24 openTWS rfl⟩

/-- C6 counterexample: `handleResize` forwards the terminal's dimensions
without clamping or validation, so at a terminal 600 columns wide it emits
a resize command whose cols field exceeds the spec's 500 bound. -/
theorem c6_counterexample :
    handleResize (some (600, 100)) = some (TerminalCommand.resize 600 100)
    ∧ (500 : Int) < 600
    ∧ resizeInBounds (TerminalCommand.resize 600 100) = false :=
  ⟨rfl, by decide, by decide⟩

/-- C6 amended: every resize command produced by `handleResize` carries
exactly the terminal's current cols and rows, unmodified — the client
performs no clamping — so the wire message satisfies the spec's 1..500
by 1..200 bounds exactly when the terminal's dimensions already do. -/
theorem c6_resizeForwardsUnclamped (cols rows : Int) :
    handleResize (some (cols, rows)) = some (TerminalCommand.resize cols rows)
    ∧ (1 ≤ cols → cols ≤ 500 → 1 ≤ rows → rows ≤ 200 →
        resizeInBounds (TerminalCommand.resize cols rows) = true) := by
  refine ⟨rfl, fun h1 h2 h3 h4 => ?_⟩
  simp only [resizeInBounds, Bool.and_eq_true, decide_eq_true_eq]
  exact ⟨⟨⟨h1, h2⟩, h3⟩, h4⟩

/-- Witness for the amended C6 at the default 80 by 24 terminal. -/
theorem c6_resizeForwardsUnclamped_witness :
    handleResize (some (80, 24)) = some (TerminalCommand.resize 80 24)
    ∧ resizeInBounds (TerminalCommand.resize 80 24) = true :=
  ⟨(c6_resizeForwardsUnclamped 80 24).1,
    (c6_resizeForwardsUnclamped 80 24).2 (by decide) (by decide) (by decide) (by decide)⟩

/-- C7: disconnect is idempotent.  A second `disconnect()` reproduces the
same instance state, calls `close()` on no socket (so it transmits
nothing and raises nothing), and leaves the state 'disconnected'
unchanged; on the Broadcaster side (modelled from the spec),
`Unsubscribe` twice equals `Unsubscribe` once, so the subscriber count is
not decremented a second time. -/
theorem c7_disconnectIdempotent (s : TerminalWebSocket) (b : Broadcaster) (v : Nat) :
    disconnect (disconnect s).1 = ((disconnect s).1, false)
    ∧ (disconnect s).1.state = WebSocketState.disconnected
    ∧ unsubscribe (unsubscribe b v) v = unsubscribe b v
    ∧ ((unsubscribe (unsubscribe b v) v).subs.length = (unsubscribe b v).subs.length) := by
  have h : unsubscribe (unsubscribe b v) v = unsubscribe b v := by
    simp [unsubscribe, List.filter_filter]
  exact ⟨rfl, rfl, h, by rw [h]⟩

/-- C8: Interrupt delivers SIGINT to the process group without forcibly
killing: a Running process that ignores the signal stays Running; one
with the default disposition transitions to Exited; mock-claude.sh's
HANG handler (trap to exit 130) also leads to Exited; and for every
disposition the outcome is Running or Exited — the Controller never
forces a kill or an Errored state. -/
theorem c8_interruptDoesNotKill :
    interruptResult ProcState.Running SigintDisposition.ignore = ProcState.Running
    ∧ interruptResult ProcState.Running SigintDisposition.dfl = ProcState.Exited
    ∧ interruptResult ProcState.Running mockHangDisposition = ProcState.Exited
    ∧ ∀ d : SigintDisposition,
        interruptResult ProcState.Running d = ProcState.Running
        ∨ interruptResult ProcState.Running d = ProcState.Exited := by
  refine ⟨rfl, rfl, rfl, fun d => ?_⟩
  cases d with
  | ignore => exact Or.inl rfl
  | dfl => exact Or.inr rfl
  | handler code => exact Or.inr rfl

/-- C9 counterexample: `reconnect()` does not leave automatic reconnection
disabled for all later connection drops — once the fresh socket opens, the
`onopen` handler resets `reconnectAttempts` to 0, so the next socket close
schedules a reconnection attempt. -/
theorem c9_counterexample :
    (reconnect initTWS).reconnectAttempts = maxReconnectAttempts
    ∧ (onOpen (reconnect initTWS)).reconnectAttempts = 0
    ∧ (onClose (onOpen (reconnect initTWS))).2 = true := by
  decide

/-- C9 amended: after `disconnect()` the counter equals
`maxReconnectAttempts`, so `attemptReconnect` schedules nothing on any
subsequent socket close; `reconnect()` (which resets the counter and then
calls `disconnect()`) likewise leaves the counter at the maximum, so
drops are not auto-reconnected — but only until the new socket's `onopen`
fires, which resets the counter to 0 and re-enables automatic
reconnection for later drops. -/
theorem c9_reconnectCounter (s : TerminalWebSocket) :
    (disconnect s).1.reconnectAttempts = maxReconnectAttempts
    ∧ (attemptReconnect (disconnect s).1).2 = false
    ∧ (onClose (disconnect s).1).2 = false
    ∧ (reconnect s).reconnectAttempts = maxReconnectAttempts
    ∧ (onClose (reconnect s)).2 = false
    ∧ (onOpen (reconnect s)).reconnectAttempts = 0
    ∧ (onClose (onOpen (reconnect s))).2 = true :=
  ⟨rfl, rfl, rfl, rfl, rfl, rfl, rfl⟩

/-- C10: when the underlying socket is absent or not OPEN, both
`TerminalWebSocket.send` and Terminal.svelte's `sendCommand` transmit
nothing and produce no error — the command is silently discarded, and
nothing is queued (both are pure functions of an unmodified state whose
only output is the transmitted frame). -/
theorem c10_sendSilentlyDiscards (s : TerminalWebSocket) (t : TerminalComponent)
    (cmd : TerminalCommand)
    (hs : s.ws ≠ some WSReadyState.OPEN) (ht : t.ws ≠ some WSReadyState.OPEN) :
    send s cmd = none ∧ sendCommand t cmd = none := by
  constructor <;> simp [send, sendCommand, hs, ht]

/-- Witness for C10 on a fresh instance whose socket is null. -/
theorem c10_sendSilentlyDiscards_witness :
    (initTWS.ws == some WSReadyState.OPEN) = false
    ∧ send initTWS TerminalCommand.interrupt = none
    ∧ sendCommand { ws := none } TerminalCommand.interrupt = none :=
  ⟨by decide,
    (c10_sendSilentlyDiscards initTWS { ws := none } TerminalCommand.interrupt
      (by decide) (by decide)).1,
    (c10_sendSilentlyDiscards initTWS { ws := none } TerminalCommand.interrupt
      (by decide) (by decide)).2⟩

/-- C1: after any history `pre`, a viewer subscribing and then observing
the rest of the trace `post` (during which it neither re-subscribes nor
unsubscribes, and its bounded queue — of capacity `qcap`, at least the
number of chunks published after its subscription — never overruns)
observes exactly one Output event carrying the full Snapshot taken at
subscription time (even when that snapshot is empty) followed by every
chunk published after its subscription, exactly once, in order; at the
byte level the observed stream is exactly snapshot bytes followed by the
published bytes, with no byte duplicated and none skipped at the seam. -/
theorem c1_snapshotThenLive (qcap : Nat) (pre post : List BEv) (v : Nat)
    (hv : ∀ e ∈ post, touchesViewer v e = false)
    (hq : (publishedChunks post).length ≤ qcap) :
    viewerEvents (runB qcap emptyBroadcaster (pre ++ BEv.subscribe v :: post)) v
      = Event.output (ringSnapshot (runB qcap emptyBroadcaster pre).buffer)
          :: (publishedChunks post).map Event.output
    ∧ outputBytes
        (viewerEvents (runB qcap emptyBroadcaster (pre ++ BEv.subscribe v :: post)) v)
      = ringSnapshot (runB qcap emptyBroadcaster pre).buffer
          ++ (publishedChunks post).flatten := by
  have hrun : runB qcap emptyBroadcaster (pre ++ BEv.subscribe v :: post)
      = runB qcap (subscribe (runB qcap emptyBroadcaster pre) v) post := by
    unfold runB
    rw [List.foldl_append, List.foldl_cons]
    rfl
  obtain ⟨vs', h1, h2⟩ := c1_aux qcap v post
    (subscribe (runB qcap emptyBroadcaster pre) v)
    { delivered := [ringSnapshot (runB qcap emptyBroadcaster pre).buffer],
      queue := [], drops := 0 }
    (lookupViewer_subscribe_self _ _) hv (by simpa using hq)
  have hev : viewerEvents (runB qcap emptyBroadcaster (pre ++ BEv.subscribe v :: post)) v
      = (vs'.delivered ++ vs'.queue).map Event.output := by
    rw [hrun]
    unfold viewerEvents
    rw [h1]
  have h2' : vs'.delivered ++ vs'.queue
      = ringSnapshot (runB qcap emptyBroadcaster pre).buffer :: publishedChunks post := by
    rw [h2]
    rfl
  constructor
  · rw [hev, h2']
    rfl
  · rw [hev, h2', outputBytes_map_output]
    rfl

/-- Witness for C1 on a concrete trace: one chunk of history, viewer 7
subscribes, then two live chunks with a drain in between. -/
theorem c1_snapshotThenLive_witness :
    (∀ e ∈ [BEv.publish [3], BEv.drain 7, BEv.publish [4]], touchesViewer 7 e = false)
    ∧ (publishedChunks [BEv.publish [3], BEv.drain 7, BEv.publish [4]]).length ≤ 2
    ∧ (viewerEvents (runB 2 emptyBroadcaster
          ([BEv.publish [1, 2]] ++ BEv.subscribe 7
            :: [BEv.publish [3], BEv.drain 7, BEv.publish [4]])) 7
        = Event.output (ringSnapshot (runB 2 emptyBroadcaster [BEv.publish [1, 2]]).buffer)
            :: (publishedChunks [BEv.publish [3], BEv.drain 7, BEv.publish [4]]).map
                Event.output
      ∧ outputBytes (viewerEvents (runB 2 emptyBroadcaster
            ([BEv.publish [1, 2]] ++ BEv.subscribe 7
              :: [BEv.publish [3], BEv.drain 7, BEv.publish [4]])) 7)
        = ringSnapshot (runB 2 emptyBroadcaster [BEv.publish [1, 2]]).buffer
            ++ (publishedChunks [BEv.publish [3], BEv.drain 7, BEv.publish [4]]).flatten) :=
  ⟨by decide, by decide,
    c1_snapshotThenLive 2 [BEv.publish [1, 2]]
      [BEv.publish [3], BEv.drain 7, BEv.publish [4]] 7 (by decide) (by decide)⟩

/-- C3: every subscriber — whatever the history `pre` before it connected,
and even when its bounded queue overruns and live chunks are dropped —
observes an order-preserving selection of (its snapshot, then the chunks
published after its subscription, in the single producer's emission
order): its observation is a sublist of that sequence, so for any two
chunks published C1-before-C2 a viewer observing both observes C1 first,
and fan-out never reorders per destination. -/
theorem c3_orderPreserved (qcap : Nat) (pre post : List BEv) (v : Nat)
    (hv : ∀ e ∈ post, touchesViewer v e = false) :
    (viewerEvents (runB qcap emptyBroadcaster (pre ++ BEv.subscribe v :: post)) v).Sublist
      (Event.output (ringSnapshot (runB qcap emptyBroadcaster pre).buffer)
        :: (publishedChunks post).map Event.output) := by
  have hrun : runB qcap emptyBroadcaster (pre ++ BEv.subscribe v :: post)
      = runB qcap (subscribe (runB qcap emptyBroadcaster pre) v) post := by
    unfold runB
    rw [List.foldl_append, List.foldl_cons]
    rfl
  obtain ⟨vs', h1, h2⟩ := c3_aux qcap v post
    (subscribe (runB qcap emptyBroadcaster pre) v)
    { delivered := [ringSnapshot (runB qcap emptyBroadcaster pre).buffer],
      queue := [], drops := 0 }
    (lookupViewer_subscribe_self _ _) hv
  have hev : viewerEvents (runB qcap emptyBroadcaster (pre ++ BEv.subscribe v :: post)) v
      = (vs'.delivered ++ vs'.queue).map Event.output := by
    rw [hrun]
    unfold viewerEvents
    rw [h1]
  have h2' : (vs'.delivered ++ vs'.queue).Sublist
      (ringSnapshot (runB qcap emptyBroadcaster pre).buffer :: publishedChunks post) := by
    simpa using h2
  rw [hev]
  exact List.Sublist.map Event.output h2'

/-- Witness for C3 on a concrete trace where the viewer's queue (capacity
1) does overrun: order is still preserved. -/
theorem c3_orderPreserved_witness :
    (∀ e ∈ [BEv.publish [1], BEv.publish [2]], touchesViewer 0 e = false)
    ∧ (viewerEvents (runB 1 emptyBroadcaster
          ([] ++ BEv.subscribe 0 :: [BEv.publish [1], BEv.publish [2]])) 0).Sublist
        (Event.output (ringSnapshot (runB 1 emptyBroadcaster []).buffer)
          :: (publishedChunks [BEv.publish [1], BEv.publish [2]]).map Event.output) :=
  ⟨by decide,
    c3_orderPreserved 1 [] [BEv.publish [1], BEv.publish [2]] 0 (by decide)⟩

/-- C4: when Publish finds subscriber v's bounded queue full, it drops
v's oldest queued chunk only (appending the new chunk and counting one
overrun, resolved internally — Publish is a total function returning the
new Broadcaster state, so no error reaches the caller and the producer
never blocks); every subscriber w's new state is `pushChunk` of its own
old state — unaffected by v's overrun — and the chunk still reaches the
Ring Buffer. -/
theorem c4_overrunDropsOldestOnly (qcap : Nat) (b : Broadcaster) (c : List Nat)
    (v w : Nat) (vsv vsw : ViewerState)
    (hv : lookupViewer b v = some vsv)
    (hfull : vsv.queue.length ≥ qcap)
    (hw : lookupViewer b w = some vsw) :
    lookupViewer (publish qcap b c) v
      = some { delivered := vsv.delivered, queue := vsv.queue.drop 1 ++ [c],
               drops := vsv.drops + 1 }
    ∧ lookupViewer (publish qcap b c) w = some (pushChunk qcap vsw c)
    ∧ (publish qcap b c).buffer = ringAppend b.buffer c := by
  refine ⟨?_, ?_, by dsimp only [publish]⟩
  · rw [lookupViewer_publish, hv]
    show some (pushChunk qcap vsv c) = _
    unfold pushChunk
    rw [if_pos hfull]
  · rw [lookupViewer_publish, hw]
    rfl

/-- Witness for C4 on `overrunDemo` with queue capacity 1: publishing one
chunk drops viewer 0's oldest queued chunk and leaves viewer 1's delivery
and the Ring Buffer unaffected by the overrun. -/
theorem c4_overrunDropsOldestOnly_witness :
    lookupViewer overrunDemo 0 = some { delivered := [[]], queue := [[5]], drops := 0 }
    ∧ ({ delivered := [[]], queue := [[5]], drops := 0 } : ViewerState).queue.length ≥ 1
    ∧ lookupViewer overrunDemo 1 = some { delivered := [[]], queue := [], drops := 0 }
    ∧ (lookupViewer (publish 1 overrunDemo [7]) 0
        = some { delivered := [[]], queue := List.drop 1 [[5]] ++ [[7]], drops := 0 + 1 }
      ∧ lookupViewer (publish 1 overrunDemo [7]) 1
        = some (pushChunk 1 { delivered := [[]], queue := [], drops := 0 } [7])
      ∧ (publish 1 overrunDemo [7]).buffer = ringAppend overrunDemo.buffer [7]) :=
  ⟨by decide, by decide, by decide,
    c4_overrunDropsOldestOnly 1 overrunDemo [7] 0 1
      { delivered := [[]], queue := [[5]], drops := 0 }
      { delivered := [[]], queue := [], drops := 0 }
      (by decide) (by decide) (by decide)⟩

end Spec2Proof
